import Mathlib

/-!
Verification of the HP transaction reconciliation/export pipeline
(hp-processor.js) of the actual-budget-system repository, together with the
dashboard trigger endpoint.  Pure functions of the source are translated to
Lean functions; the stateful run is translated to explicit state passing.
External effects (ledger fetches, Xano submissions, tag writes, state-file
reads and writes) are passed in as explicit outcome parameters so that every
control path of the source is represented.
-/

namespace ActualHP

/-- JS `needle is a prefix of hay` on character lists, used to model
`String.prototype.includes` below. -/
def charsPrefix : List Char → List Char → Bool
  | _, [] => true
  | [], _ :: _ => false
  | a :: as, b :: bs => a == b && charsPrefix as bs

/-- JS `hay.includes(needle)`: substring search at every position. -/
def charsIncludes (hay needle : List Char) : Bool :=
  match hay with
  | [] => charsPrefix [] needle
  | c :: t => charsPrefix (c :: t) needle || charsIncludes t needle

/-- JS `hay.includes(needle)` on strings. -/
def strIncludes (hay needle : String) : Bool :=
  charsIncludes hay.data needle.data

theorem charsPrefix_correct (hay needle : List Char) :
    charsPrefix hay needle = true ↔ needle <+: hay := by
  induction hay generalizing needle with
  | nil =>
    cases needle with
    | nil => simp [charsPrefix]
    | cons b bs => simp [charsPrefix]
  | cons a as ih =>
    cases needle with
    | nil => simp [charsPrefix]
    | cons b bs =>
      rw [charsPrefix, Bool.and_eq_true, beq_iff_eq, ih, List.cons_prefix_cons]
      constructor
      · rintro ⟨h1, h2⟩; exact ⟨h1.symm, h2⟩
      · rintro ⟨h1, h2⟩; exact ⟨h1.symm, h2⟩

theorem charsIncludes_correct (hay needle : List Char) :
    charsIncludes hay needle = true ↔ needle <:+: hay := by
  induction hay with
  | nil =>
    simp [charsIncludes, charsPrefix_correct]
  | cons a t ih =>
    rw [charsIncludes, Bool.or_eq_true, charsPrefix_correct, ih]
    exact (List.infix_cons_iff).symm

theorem strIncludes_correct (hay needle : String) :
    strIncludes hay needle = true ↔ needle.data <:+: hay.data :=
  charsIncludes_correct hay.data needle.data

/-- A ledger transaction as fetched from the Actual Budget API: the fields
hp-processor.js reads.  `category` and `notes` are nullable in the source and
are modelled as `Option`. -/
structure Transaction where
  id : String
  payee : Option String
  amount : Int
  date : String
  category : Option String
  cleared : Bool
  notes : Option String
  account : String
  deriving DecidableEq

/-- `transaction.notes || ''` of the source. -/
def notesOrEmpty (t : Transaction) : String :=
  t.notes.getD ""

/-- The per-account filter of fetchHPTransactions:
`t.category && hpCategoryIds.includes(t.category)` (a missing or empty
category is falsy in JS). -/
def hpCategoryFilter (hpCategoryIds : List String) (t : Transaction) : Bool :=
  match t.category with
  | none => false
  | some c => !(c == "") && hpCategoryIds.contains c

/-- The idempotency markers written into ledger notes. -/
def submittedMarker : String := "#HP-Submitted"

/-- The second idempotency marker. -/
def paidMarker : String := "#HP-Paid"

/-- Step 5 of fetchHPTransactions: keep cleared transactions whose notes do
not already contain either marker. -/
def eligibleFilter (t : Transaction) : Bool :=
  if !t.cleared then false
  else if strIncludes (notesOrEmpty t) submittedMarker
      || strIncludes (notesOrEmpty t) paidMarker then false
  else true

/-- One account's contribution to the candidate set: the fetched
transactions filtered to HP categories, or nothing when the fetch for that
account failed (the `catch` branch of the fetch loop logs and skips). -/
def accountHPTransactions (hpCategoryIds : List String)
    (fetch : Except String (List Transaction)) : List Transaction :=
  match fetch with
  | .ok txs => txs.filter (hpCategoryFilter hpCategoryIds)
  | .error _ => []

/-- The fetch loop of fetchHPTransactions: each account's HP transactions
are appended to the running candidate set; a failed account is skipped. -/
def mergeAccountFetches (hpCategoryIds : List String)
    (fetches : List (Except String (List Transaction))) : List Transaction :=
  fetches.foldl (fun acc f => acc ++ accountHPTransactions hpCategoryIds f) []

/-- The eligible set fetchHPTransactions returns: the merged candidate set
put through the eligibility filter. -/
def fetchEligible (hpCategoryIds : List String)
    (fetches : List (Except String (List Transaction))) : List Transaction :=
  (mergeAccountFetches hpCategoryIds fetches).filter eligibleFilter

theorem mergeAccountFetches_eq_join (hpCategoryIds : List String)
    (fetches : List (Except String (List Transaction))) :
    mergeAccountFetches hpCategoryIds fetches
      = (fetches.map (accountHPTransactions hpCategoryIds)).flatten := by
  suffices h : ∀ (l : List (Except String (List Transaction)))
      (init : List Transaction),
      l.foldl (fun acc f => acc ++ accountHPTransactions hpCategoryIds f) init
        = init ++ (l.map (accountHPTransactions hpCategoryIds)).flatten by
    simpa using h fetches []
  intro l
  induction l with
  | nil => simp
  | cons f rest ih => intro init; simp [ih, List.append_assoc]

theorem eligibleFilter_iff (t : Transaction) :
    eligibleFilter t = true ↔
      t.cleared = true
        ∧ ¬ submittedMarker.data <:+: (notesOrEmpty t).data
        ∧ ¬ paidMarker.data <:+: (notesOrEmpty t).data := by
  rw [eligibleFilter]
  rcases h : t.cleared with _ | _ <;>
    simp [h, ← strIncludes_correct, Decidable.imp_iff_not_or, not_or]

theorem hpCategoryFilter_iff (hpCategoryIds : List String) (t : Transaction) :
    hpCategoryFilter hpCategoryIds t = true ↔
      ∃ c, t.category = some c ∧ ¬ c = "" ∧ c ∈ hpCategoryIds := by
  rw [hpCategoryFilter]
  cases h : t.category with
  | none => simp
  | some c =>
    simp [Bool.and_eq_true, List.contains, List.elem_iff]

/-- TrackedTransaction.status of the state file. -/
inductive TxStatus
  | pending
  | submitted
  | paid
  | failed
  deriving DecidableEq

/-- A tracked transaction as hp-processor.js stores it in
`state.transactions[id]`. -/
structure TrackedTransaction where
  id : String
  payee : Option String
  amount : Int
  date : String
  category : Option String
  status : TxStatus
  created_at : String
  attempts : Nat
  last_attempt : Option String := none
  submitted_at : Option String := none
  xano_id : Option Nat := none
  error : Option String := none
  deriving DecidableEq

/-- state.statistics of hp-processor.js. -/
structure Statistics where
  total_processed : Nat
  total_submitted : Nat
  total_paid : Nat
  total_failed : Nat
  deriving DecidableEq

/-- The JS object `state.transactions`, keyed by transaction id; JS objects
keep insertion order and cannot repeat a key. -/
abbrev TxMap := List (String × TrackedTransaction)

/-- Property read `state.transactions[id]`. -/
def findTx : TxMap → String → Option TrackedTransaction
  | [], _ => none
  | p :: rest, k => if p.1 = k then some p.2 else findTx rest k

/-- Property write `state.transactions[id] = tracked`: replace an existing
key in place, else append. -/
def setTx : TxMap → String → TrackedTransaction → TxMap
  | [], k, v => [(k, v)]
  | p :: rest, k, v => if p.1 = k then (k, v) :: rest else p :: setTx rest k v

/-- The durable ProcessingState of hp-processor.js. -/
structure ProcessingState where
  transactions : TxMap
  last_processing : Option String
  statistics : Statistics
  deriving DecidableEq

/-- The default state loadState falls back to. -/
def defaultState : ProcessingState :=
  { transactions := []
    last_processing := none
    statistics :=
      { total_processed := 0
        total_submitted := 0
        total_paid := 0
        total_failed := 0 } }

/-- loadState of hp-processor.js.  `file` is what the state file holds:
`none` when `existsSync` is false, `some (.error _)` when `readFileSync`
throws, `some (.ok raw)` when the raw text is read; `parseState` is
`JSON.parse` on that text, failing on invalid JSON.  Every throwing path is
caught and falls through to the default state. -/
def loadState (file : Option (Except String String))
    (parseState : String → Except String ProcessingState) : ProcessingState :=
  match file with
  | none => defaultState
  | some (.error _) => defaultState
  | some (.ok raw) =>
    match parseState raw with
    | .ok s => s
    | .error _ => defaultState

/-- The configuration fields the submit path reads. -/
structure Config where
  hp_dry_run_mode : Bool
  hp_max_transactions_per_batch : Nat
  deriving DecidableEq

/-- Outcome of submitToXano for one transaction: the HTTP layer either
yields a Xano id or an error message (submitToXano catches every throw of
the request and turns it into `{success:false}`). -/
inductive SubmitOutcome
  | success (xano_id : Nat)
  | failure (error : String)
  deriving DecidableEq

/-- What processTransaction returns to the run loop. -/
structure ProcResult where
  success : Bool
  message : Option String := none
  error : Option String := none
  deriving DecidableEq

/-- The observable effects of one processTransaction call: the updated
transactions map, the returned result, whether submitToXano was reached,
and the notes text written to the ledger by addNoteTag (none when the tag
write failed — addNoteTag catches and only logs — or was never reached). -/
structure StepEffects where
  transactions : TxMap
  result : ProcResult
  exportCalled : Bool
  ledgerNotesWrite : Option (String × String) := none
  deriving DecidableEq

/-- The new notes string addNoteTag writes:
`currentNotes ? currentNotes + " " + tag : tag`. -/
def addNoteTagNotes (currentNotes tag : String) : String :=
  if currentNotes == "" then tag else currentNotes ++ " " ++ tag

/-- The lookup-or-create step of processTransaction: the tracked entry for
the id, created as pending with zero attempts on first detection. -/
def trackedOrNew (m : TxMap) (t : Transaction) (now : String) :
    TrackedTransaction :=
  match findTx m t.id with
  | some tr => tr
  | none =>
    { id := t.id
      payee := t.payee
      amount := t.amount
      date := t.date
      category := t.category
      status := .pending
      created_at := now
      attempts := 0 }

/-- processTransaction of hp-processor.js.  `outcome` is what submitToXano
would return this time; `tagWriteFails` is whether the `updateTransaction`
call inside addNoteTag throws (the error is caught there).  `now` stands
for `new Date().toISOString()`. -/
def processTransaction (cfg : Config) (now : String) (outcome : SubmitOutcome)
    (tagWriteFails : Bool) (m : TxMap) (t : Transaction) : StepEffects :=
  let tracked0 := trackedOrNew m t now
  let tracked1 :=
    { tracked0 with attempts := tracked0.attempts + 1, last_attempt := some now }
  if cfg.hp_dry_run_mode then
    let tracked2 := { tracked1 with status := .submitted, submitted_at := some now }
    { transactions := setTx m t.id tracked2
      result := { success := true, message := some "Dry run successful" }
      exportCalled := false
      ledgerNotesWrite := none }
  else
    match outcome with
    | .success xid =>
      let tracked2 :=
        { tracked1 with
            status := .submitted, submitted_at := some now, xano_id := some xid }
      { transactions := setTx m t.id tracked2
        result := { success := true, message := some "Transaction submitted successfully" }
        exportCalled := true
        ledgerNotesWrite :=
          if tagWriteFails then none
          else some (t.id, addNoteTagNotes (notesOrEmpty t) submittedMarker) }
    | .failure msg =>
      let tracked2 := { tracked1 with status := .failed, error := some msg }
      { transactions := setTx m t.id tracked2
        result := { success := false, error := some msg }
        exportCalled := true
        ledgerNotesWrite := none }

/-- The per-run tallies of processAllTransactions. -/
structure RunCounts where
  processed : Nat
  submitted : Nat
  failed : Nat
  deriving DecidableEq

/-- The loop state of the `for (const transaction of transactionsToProcess)`
loop: the transactions map, the running counts, the ids submitToXano was
called for (in order), and the ledger notes writes performed. -/
structure RunAcc where
  transactions : TxMap
  counts : RunCounts
  exportCalls : List String
  ledgerWrites : List (String × String)
  deriving DecidableEq

/-- One iteration of the processing loop: call processTransaction, bump
processed, and bump submitted or failed from the result. -/
def runStep (cfg : Config) (now : String) (outcomes : String → SubmitOutcome)
    (tagFails : String → Bool) (acc : RunAcc) (t : Transaction) : RunAcc :=
  let e := processTransaction cfg now (outcomes t.id) (tagFails t.id) acc.transactions t
  { transactions := e.transactions
    counts :=
      { processed := acc.counts.processed + 1
        submitted := acc.counts.submitted + (if e.result.success then 1 else 0)
        failed := acc.counts.failed + (if e.result.success then 0 else 1) }
    exportCalls := acc.exportCalls ++ (if e.exportCalled then [t.id] else [])
    ledgerWrites :=
      acc.ledgerWrites ++
        (match e.ledgerNotesWrite with
         | some w => [w]
         | none => []) }

/-- saveState of hp-processor.js: `last_processing` is stamped in memory
first, then the snapshot is written; a failed write is caught and logged,
leaving the in-memory state authoritative.  Returns the in-memory state and
the snapshot on disk (none when the write failed). -/
def saveState (saveFails : Bool) (now : String) (s : ProcessingState) :
    ProcessingState × Option ProcessingState :=
  let s2 := { s with last_processing := some now }
  (s2, if saveFails then none else some s2)

/-- Everything observable of one processAllTransactions run past the fetch:
the returned counts, the final in-memory state, the attempted batch, the
export calls, the ledger writes, whether saveState was reached and what
snapshot it left on disk. -/
structure RunOutput where
  counts : RunCounts
  state : ProcessingState
  attempted : List Transaction
  exportCalls : List String
  ledgerWrites : List (String × String)
  saveCalled : Bool
  savedSnapshot : Option ProcessingState
  deriving DecidableEq

/-- The batch the loop walks:
`transactions.slice(0, Math.min(transactions.length, batch))`. -/
def runBatchOf (cfg : Config) (transactions : List Transaction) :
    List Transaction :=
  transactions.take (min transactions.length cfg.hp_max_transactions_per_batch)

/-- The loop accumulator at entry: the in-memory map and zero counters. -/
def runInit (s : ProcessingState) : RunAcc :=
  { transactions := s.transactions
    counts := { processed := 0, submitted := 0, failed := 0 }
    exportCalls := []
    ledgerWrites := [] }

/-- The loop accumulator after the whole batch. -/
def runAccOf (cfg : Config) (now : String) (outcomes : String → SubmitOutcome)
    (tagFails : String → Bool) (s : ProcessingState)
    (transactions : List Transaction) : RunAcc :=
  (runBatchOf cfg transactions).foldl (runStep cfg now outcomes tagFails)
    (runInit s)

/-- The post-fetch part of processAllTransactions: the early return when no
eligible transaction was found (counters zero, nothing saved), else the
batch-bounded loop, the statistics update, and saveState. -/
def runProcessing (cfg : Config) (now : String) (outcomes : String → SubmitOutcome)
    (tagFails : String → Bool) (saveFails : Bool) (s : ProcessingState)
    (transactions : List Transaction) : RunOutput :=
  if transactions.length = 0 then
    { counts := { processed := 0, submitted := 0, failed := 0 }
      state := s
      attempted := []
      exportCalls := []
      ledgerWrites := []
      saveCalled := false
      savedSnapshot := none }
  else
    let transactionsToProcess := runBatchOf cfg transactions
    let acc := runAccOf cfg now outcomes tagFails s transactions
    let s1 : ProcessingState :=
      { transactions := acc.transactions
        last_processing := s.last_processing
        statistics :=
          { total_processed := s.statistics.total_processed + acc.counts.processed
            total_submitted := s.statistics.total_submitted + acc.counts.submitted
            total_paid := s.statistics.total_paid
            total_failed := s.statistics.total_failed + acc.counts.failed } }
    let saved := saveState saveFails now s1
    { counts := acc.counts
      state := saved.1
      attempted := transactionsToProcess
      exportCalls := acc.exportCalls
      ledgerWrites := acc.ledgerWrites
      saveCalled := true
      savedSnapshot := saved.2 }

/-- The full fetch → filter → submit → persist pipeline of one run, given
the per-account fetch outcomes of the lookback window. -/
def runPipeline (cfg : Config) (now : String) (outcomes : String → SubmitOutcome)
    (tagFails : String → Bool) (saveFails : Bool) (s : ProcessingState)
    (hpCategoryIds : List String)
    (fetches : List (Except String (List Transaction))) : RunOutput :=
  runProcessing cfg now outcomes tagFails saveFails s
    (fetchEligible hpCategoryIds fetches)

/-- What the spawned hp-processor child did, as seen by the dashboard
endpoint: it exited with a code and stdout text, or hit the 60s timeout. -/
inductive ChildOutcome
  | exited (code : Nat) (output : String)
  | timedOut
  deriving DecidableEq

/-- The HTTP response of the hp-process trigger endpoint. -/
structure TriggerResponse where
  httpStatus : Nat
  success : Bool
  message : String
  deriving DecidableEq

/-- The POST /dashboard-api/hp-process handler of the dashboard server: it
spawns `hp-processor.js --manual` unconditionally — the handler's code holds
no notion of an active run, so the `runInProgress` parameter (whether a run
is active in the environment when the trigger arrives) is never consulted.
`parsedOk` is whether the child's last stdout line parses as JSON.  Returns
the response and whether a new processor run was spawned. -/
def hpProcessHandler (runInProgress : Bool) (child : ChildOutcome)
    (parsedOk : Bool) : TriggerResponse × Bool :=
  let response :=
    match child with
    | .timedOut =>
      { httpStatus := 408
        success := false
        message := "HP processing timed out" }
    | .exited code output =>
      if code == 0 && !(output == "") && parsedOk then
        { httpStatus := 200
          success := true
          message := "HP transaction processing completed successfully" }
      else
        { httpStatus := 500
          success := false
          message := "HP processing failed" }
  (response, true)

theorem findTx_setTx_self (m : TxMap) (k : String) (v : TrackedTransaction) :
    findTx (setTx m k v) k = some v := by
  induction m with
  | nil => simp [setTx, findTx]
  | cons p rest ih =>
    by_cases h : p.1 = k <;> simp [setTx, findTx, h, ih]

theorem findTx_setTx_ne (m : TxMap) (k k' : String) (v : TrackedTransaction)
    (h : ¬ k = k') : findTx (setTx m k v) k' = findTx m k' := by
  induction m with
  | nil => simp [setTx, findTx, h]
  | cons p rest ih =>
    by_cases hp : p.1 = k
    · simp [setTx, findTx, hp, h]
    · simp [setTx, findTx, hp, ih]

theorem setTx_keys (m : TxMap) (k : String) (v : TrackedTransaction) :
    (setTx m k v).map Prod.fst
      = if k ∈ m.map Prod.fst then m.map Prod.fst
        else m.map Prod.fst ++ [k] := by
  induction m with
  | nil => simp [setTx]
  | cons p rest ih =>
    by_cases hp : p.1 = k
    · simp [setTx, hp]
    · have hne : ¬ k = p.1 := fun hk => hp hk.symm
      by_cases hk : k ∈ rest.map Prod.fst <;>
        simp [setTx, hp, ih, hk, hne]

theorem setTx_keys_nodup (m : TxMap) (k : String) (v : TrackedTransaction)
    (h : (m.map Prod.fst).Nodup) : ((setTx m k v).map Prod.fst).Nodup := by
  rw [setTx_keys]
  by_cases hk : k ∈ m.map Prod.fst
  · simpa [hk] using h
  · simp only [hk, if_false]
    simp [List.nodup_append, h, hk]

theorem processTransaction_shape (cfg : Config) (now : String)
    (outcome : SubmitOutcome) (tagWriteFails : Bool) (m : TxMap)
    (t : Transaction) :
    ∃ tr2 : TrackedTransaction,
      (processTransaction cfg now outcome tagWriteFails m t).transactions
          = setTx m t.id tr2
        ∧ tr2.attempts = (trackedOrNew m t now).attempts + 1
        ∧ (tr2.status = .submitted ∨ tr2.status = .failed) := by
  by_cases hdry : cfg.hp_dry_run_mode = true
  · exact ⟨{ { trackedOrNew m t now with
        attempts := (trackedOrNew m t now).attempts + 1,
        last_attempt := some now } with
        status := .submitted, submitted_at := some now },
      by simp [processTransaction, hdry], rfl, Or.inl rfl⟩
  · cases outcome with
    | success xid =>
      exact ⟨{ { trackedOrNew m t now with
          attempts := (trackedOrNew m t now).attempts + 1,
          last_attempt := some now } with
          status := .submitted, submitted_at := some now, xano_id := some xid },
        by simp [processTransaction, hdry], rfl, Or.inl rfl⟩
    | failure msg =>
      exact ⟨{ { trackedOrNew m t now with
          attempts := (trackedOrNew m t now).attempts + 1,
          last_attempt := some now } with
          status := .failed, error := some msg },
        by simp [processTransaction, hdry], rfl, Or.inr rfl⟩

/-- How one tracked entry can change across one processing step: the map
stays keyed at most once, every surviving entry's attempt count is
non-decreasing, and an entry can become pending only if it already was. -/
def MapEvolves (m m2 : TxMap) : Prop :=
  ∀ k tr, findTx m k = some tr →
    ∃ tr2, findTx m2 k = some tr2
      ∧ tr.attempts ≤ tr2.attempts
      ∧ (tr2.status = .pending → tr.status = .pending)

theorem MapEvolves.refl (m : TxMap) : MapEvolves m m :=
  fun _ tr h => ⟨tr, h, Nat.le_refl _, fun hp => hp⟩

theorem MapEvolves.trans {m1 m2 m3 : TxMap} (h12 : MapEvolves m1 m2)
    (h23 : MapEvolves m2 m3) : MapEvolves m1 m3 := by
  intro k tr h
  obtain ⟨tr2, hf2, ha2, hs2⟩ := h12 k tr h
  obtain ⟨tr3, hf3, ha3, hs3⟩ := h23 k tr2 hf2
  exact ⟨tr3, hf3, Nat.le_trans ha2 ha3, fun hp => hs2 (hs3 hp)⟩

theorem processTransaction_evolves (cfg : Config) (now : String)
    (outcome : SubmitOutcome) (tagWriteFails : Bool) (m : TxMap)
    (t : Transaction) :
    MapEvolves m (processTransaction cfg now outcome tagWriteFails m t).transactions := by
  obtain ⟨tr2, heq, hatt, hstat⟩ :=
    processTransaction_shape cfg now outcome tagWriteFails m t
  intro k tr h
  rw [heq]
  by_cases hk : t.id = k
  · subst hk
    refine ⟨tr2, findTx_setTx_self m t.id tr2, ?_, ?_⟩
    · have : trackedOrNew m t now = tr := by simp [trackedOrNew, h]
      rw [hatt, this]
      exact Nat.le_succ _
    · intro hp
      rcases hstat with hs | hs <;> rw [hs] at hp <;> cases hp
  · exact ⟨tr, by rw [findTx_setTx_ne m t.id k tr2 hk]; exact h,
      Nat.le_refl _, fun hp => hp⟩

theorem processTransaction_keys_nodup (cfg : Config) (now : String)
    (outcome : SubmitOutcome) (tagWriteFails : Bool) (m : TxMap)
    (t : Transaction) (h : (m.map Prod.fst).Nodup) :
    (((processTransaction cfg now outcome tagWriteFails m t).transactions).map
      Prod.fst).Nodup := by
  obtain ⟨tr2, heq, -, -⟩ :=
    processTransaction_shape cfg now outcome tagWriteFails m t
  rw [heq]
  exact setTx_keys_nodup m t.id tr2 h

theorem runFold_evolves (cfg : Config) (now : String)
    (outcomes : String → SubmitOutcome) (tagFails : String → Bool) :
    ∀ (l : List Transaction) (init : RunAcc),
      MapEvolves init.transactions
        ((l.foldl (runStep cfg now outcomes tagFails) init).transactions) := by
  intro l
  induction l with
  | nil => intro init; exact MapEvolves.refl _
  | cons t rest ih =>
    intro init
    rw [List.foldl_cons]
    refine MapEvolves.trans ?_ (ih (runStep cfg now outcomes tagFails init t))
    exact processTransaction_evolves cfg now (outcomes t.id) (tagFails t.id)
      init.transactions t

theorem runFold_keys_nodup (cfg : Config) (now : String)
    (outcomes : String → SubmitOutcome) (tagFails : String → Bool) :
    ∀ (l : List Transaction) (init : RunAcc),
      (init.transactions.map Prod.fst).Nodup →
      (((l.foldl (runStep cfg now outcomes tagFails) init).transactions).map
        Prod.fst).Nodup := by
  intro l
  induction l with
  | nil => intro init h; exact h
  | cons t rest ih =>
    intro init h
    rw [List.foldl_cons]
    exact ih _ (processTransaction_keys_nodup cfg now (outcomes t.id)
      (tagFails t.id) init.transactions t h)

theorem runFold_processed (cfg : Config) (now : String)
    (outcomes : String → SubmitOutcome) (tagFails : String → Bool) :
    ∀ (l : List Transaction) (init : RunAcc),
      (l.foldl (runStep cfg now outcomes tagFails) init).counts.processed
        = init.counts.processed + l.length := by
  intro l
  induction l with
  | nil => intro init; simp
  | cons t rest ih =>
    intro init
    rw [List.foldl_cons, ih]
    simp [runStep]
    omega

theorem runFold_exportCalls_mem (cfg : Config) (now : String)
    (outcomes : String → SubmitOutcome) (tagFails : String → Bool) :
    ∀ (l : List Transaction) (init : RunAcc) (i : String),
      i ∈ (l.foldl (runStep cfg now outcomes tagFails) init).exportCalls →
      i ∈ init.exportCalls ∨ ∃ t, t ∈ l ∧ t.id = i := by
  intro l
  induction l with
  | nil => intro init i h; exact Or.inl h
  | cons t rest ih =>
    intro init i h
    rw [List.foldl_cons] at h
    rcases ih _ i h with h1 | ⟨u, hu, hid⟩
    · have h2 : i ∈ init.exportCalls
          ∨ i ∈ (if (processTransaction cfg now (outcomes t.id) (tagFails t.id)
              init.transactions t).exportCalled then [t.id] else []) := by
        simpa [runStep] using List.mem_append.mp h1
      rcases h2 with h3 | h3
      · exact Or.inl h3
      · right
        refine ⟨t, List.mem_cons_self t rest, ?_⟩
        by_cases hb : (processTransaction cfg now (outcomes t.id) (tagFails t.id)
            init.transactions t).exportCalled = true
        · simp [hb] at h3; exact h3.symm
        · simp [hb] at h3
    · exact Or.inr ⟨u, List.mem_cons_of_mem t hu, hid⟩

theorem processTransaction_dry (cfg : Config) (now : String)
    (outcome : SubmitOutcome) (tagWriteFails : Bool) (m : TxMap)
    (t : Transaction) (h : cfg.hp_dry_run_mode = true) :
    (processTransaction cfg now outcome tagWriteFails m t).exportCalled = false
      ∧ (processTransaction cfg now outcome tagWriteFails m t).result.success = true
      ∧ Option.map TrackedTransaction.status
          (findTx (processTransaction cfg now outcome tagWriteFails m t).transactions
            t.id) = some .submitted
      ∧ (processTransaction cfg now outcome tagWriteFails m t).ledgerNotesWrite
          = none := by
  refine ⟨by simp [processTransaction, h], by simp [processTransaction, h], ?_,
    by simp [processTransaction, h]⟩
  simp [processTransaction, h, findTx_setTx_self]

theorem processTransaction_preserves_submitted (cfg : Config) (now : String)
    (outcome : SubmitOutcome) (tagWriteFails : Bool) (m : TxMap)
    (t : Transaction) (k : String) (h : cfg.hp_dry_run_mode = true)
    (hk : Option.map TrackedTransaction.status (findTx m k) = some .submitted) :
    Option.map TrackedTransaction.status
      (findTx (processTransaction cfg now outcome tagWriteFails m t).transactions k)
        = some .submitted := by
  by_cases he : t.id = k
  · subst he
    exact (processTransaction_dry cfg now outcome tagWriteFails m t h).2.2.1
  · obtain ⟨tr2, heq, -, -⟩ :=
      processTransaction_shape cfg now outcome tagWriteFails m t
    rw [heq, findTx_setTx_ne m t.id k tr2 he]
    exact hk

theorem runFold_dry_preserves_submitted (cfg : Config) (now : String)
    (outcomes : String → SubmitOutcome) (tagFails : String → Bool)
    (h : cfg.hp_dry_run_mode = true) :
    ∀ (l : List Transaction) (init : RunAcc) (k : String),
      Option.map TrackedTransaction.status (findTx init.transactions k)
          = some .submitted →
      Option.map TrackedTransaction.status
        (findTx ((l.foldl (runStep cfg now outcomes tagFails) init).transactions) k)
          = some .submitted := by
  intro l
  induction l with
  | nil => intro init k hk; exact hk
  | cons t rest ih =>
    intro init k hk
    rw [List.foldl_cons]
    exact ih _ k (processTransaction_preserves_submitted cfg now (outcomes t.id)
      (tagFails t.id) init.transactions t k h hk)

theorem runFold_dry_status (cfg : Config) (now : String)
    (outcomes : String → SubmitOutcome) (tagFails : String → Bool)
    (h : cfg.hp_dry_run_mode = true) :
    ∀ (l : List Transaction) (init : RunAcc) (t : Transaction), t ∈ l →
      Option.map TrackedTransaction.status
        (findTx ((l.foldl (runStep cfg now outcomes tagFails) init).transactions)
          t.id) = some .submitted := by
  intro l
  induction l with
  | nil => intro init t ht; cases ht
  | cons u rest ih =>
    intro init t ht
    rw [List.foldl_cons]
    rcases List.mem_cons.mp ht with he | hm
    · subst he
      exact runFold_dry_preserves_submitted cfg now outcomes tagFails h rest _ t.id
        ((processTransaction_dry cfg now (outcomes t.id) (tagFails t.id)
          init.transactions t h).2.2.1)
    · exact ih _ t hm

theorem runFold_dry_counts (cfg : Config) (now : String)
    (outcomes : String → SubmitOutcome) (tagFails : String → Bool)
    (h : cfg.hp_dry_run_mode = true) :
    ∀ (l : List Transaction) (init : RunAcc),
      (l.foldl (runStep cfg now outcomes tagFails) init).counts.submitted
          = init.counts.submitted + l.length
        ∧ (l.foldl (runStep cfg now outcomes tagFails) init).counts.failed
          = init.counts.failed
        ∧ (l.foldl (runStep cfg now outcomes tagFails) init).exportCalls
          = init.exportCalls := by
  intro l
  induction l with
  | nil => intro init; exact ⟨by simp, rfl, rfl⟩
  | cons t rest ih =>
    intro init
    rw [List.foldl_cons]
    obtain ⟨hs, hf, he⟩ := ih (runStep cfg now outcomes tagFails init t)
    obtain ⟨hexp, hsucc, -, -⟩ :=
      processTransaction_dry cfg now (outcomes t.id) (tagFails t.id)
        init.transactions t h
    refine ⟨?_, ?_, ?_⟩
    · rw [hs]; simp [runStep, hsucc]; omega
    · rw [hf]; simp [runStep, hsucc]
    · rw [he]; simp [runStep, hexp]

theorem processTransaction_tag_independent (cfg : Config) (now : String)
    (outcome : SubmitOutcome) (tf1 tf2 : Bool) (m : TxMap) (t : Transaction) :
    (processTransaction cfg now outcome tf1 m t).transactions
        = (processTransaction cfg now outcome tf2 m t).transactions
      ∧ (processTransaction cfg now outcome tf1 m t).result
        = (processTransaction cfg now outcome tf2 m t).result
      ∧ (processTransaction cfg now outcome tf1 m t).exportCalled
        = (processTransaction cfg now outcome tf2 m t).exportCalled := by
  by_cases hdry : cfg.hp_dry_run_mode = true
  · simp [processTransaction, hdry]
  · cases outcome <;> simp [processTransaction, hdry]

theorem runFold_tag_independent (cfg : Config) (now : String)
    (outcomes : String → SubmitOutcome) (tf1 tf2 : String → Bool) :
    ∀ (l : List Transaction) (a1 a2 : RunAcc),
      a1.transactions = a2.transactions → a1.counts = a2.counts →
      a1.exportCalls = a2.exportCalls →
      ((l.foldl (runStep cfg now outcomes tf1) a1).transactions
          = (l.foldl (runStep cfg now outcomes tf2) a2).transactions
        ∧ (l.foldl (runStep cfg now outcomes tf1) a1).counts
          = (l.foldl (runStep cfg now outcomes tf2) a2).counts
        ∧ (l.foldl (runStep cfg now outcomes tf1) a1).exportCalls
          = (l.foldl (runStep cfg now outcomes tf2) a2).exportCalls) := by
  intro l
  induction l with
  | nil => intro a1 a2 ht hc he; exact ⟨ht, hc, he⟩
  | cons t rest ih =>
    intro a1 a2 ht hc he
    rw [List.foldl_cons, List.foldl_cons]
    obtain ⟨pt, pr, pe⟩ := processTransaction_tag_independent cfg now
      (outcomes t.id) (tf1 t.id) (tf2 t.id) a1.transactions t
    refine ih _ _ ?_ ?_ ?_
    · simpa [runStep, ht] using (ht ▸ pt)
    · simp only [runStep]
      rw [hc, ht]
      obtain ⟨-, pr2, -⟩ := processTransaction_tag_independent cfg now
        (outcomes t.id) (tf1 t.id) (tf2 t.id) a2.transactions t
      rw [pr2]
    · simp only [runStep]
      rw [he, ht]
      obtain ⟨-, -, pe2⟩ := processTransaction_tag_independent cfg now
        (outcomes t.id) (tf1 t.id) (tf2 t.id) a2.transactions t
      rw [pe2]

theorem runProcessing_zero (cfg : Config) (now : String)
    (outcomes : String → SubmitOutcome) (tagFails : String → Bool)
    (saveFails : Bool) (s : ProcessingState) :
    runProcessing cfg now outcomes tagFails saveFails s []
      = { counts := { processed := 0, submitted := 0, failed := 0 }
          state := s
          attempted := []
          exportCalls := []
          ledgerWrites := []
          saveCalled := false
          savedSnapshot := none } := by
  simp [runProcessing]

theorem runProcessing_pos_counts (cfg : Config) (now : String)
    (outcomes : String → SubmitOutcome) (tagFails : String → Bool)
    (saveFails : Bool) (s : ProcessingState) (txs : List Transaction)
    (h : ¬ txs.length = 0) :
    (runProcessing cfg now outcomes tagFails saveFails s txs).counts
      = (runAccOf cfg now outcomes tagFails s txs).counts := by
  simp [runProcessing, h]

theorem runProcessing_pos_attempted (cfg : Config) (now : String)
    (outcomes : String → SubmitOutcome) (tagFails : String → Bool)
    (saveFails : Bool) (s : ProcessingState) (txs : List Transaction)
    (h : ¬ txs.length = 0) :
    (runProcessing cfg now outcomes tagFails saveFails s txs).attempted
      = runBatchOf cfg txs := by
  simp [runProcessing, h]

theorem runProcessing_pos_exportCalls (cfg : Config) (now : String)
    (outcomes : String → SubmitOutcome) (tagFails : String → Bool)
    (saveFails : Bool) (s : ProcessingState) (txs : List Transaction)
    (h : ¬ txs.length = 0) :
    (runProcessing cfg now outcomes tagFails saveFails s txs).exportCalls
      = (runAccOf cfg now outcomes tagFails s txs).exportCalls := by
  simp [runProcessing, h]

theorem runProcessing_pos_state (cfg : Config) (now : String)
    (outcomes : String → SubmitOutcome) (tagFails : String → Bool)
    (saveFails : Bool) (s : ProcessingState) (txs : List Transaction)
    (h : ¬ txs.length = 0) :
    (runProcessing cfg now outcomes tagFails saveFails s txs).state
      = { transactions := (runAccOf cfg now outcomes tagFails s txs).transactions
          last_processing := some now
          statistics :=
            { total_processed := s.statistics.total_processed
                + (runAccOf cfg now outcomes tagFails s txs).counts.processed
              total_submitted := s.statistics.total_submitted
                + (runAccOf cfg now outcomes tagFails s txs).counts.submitted
              total_paid := s.statistics.total_paid
              total_failed := s.statistics.total_failed
                + (runAccOf cfg now outcomes tagFails s txs).counts.failed } } := by
  simp [runProcessing, h, saveState]

theorem runProcessing_pos_saveCalled (cfg : Config) (now : String)
    (outcomes : String → SubmitOutcome) (tagFails : String → Bool)
    (saveFails : Bool) (s : ProcessingState) (txs : List Transaction)
    (h : ¬ txs.length = 0) :
    (runProcessing cfg now outcomes tagFails saveFails s txs).saveCalled = true := by
  simp [runProcessing, h]

theorem runProcessing_pos_savedSnapshot (cfg : Config) (now : String)
    (outcomes : String → SubmitOutcome) (tagFails : String → Bool)
    (saveFails : Bool) (s : ProcessingState) (txs : List Transaction)
    (h : ¬ txs.length = 0) :
    (runProcessing cfg now outcomes tagFails saveFails s txs).savedSnapshot
      = if saveFails then none
        else some (runProcessing cfg now outcomes tagFails saveFails s txs).state := by
  simp [runProcessing, h, saveState]

theorem runBatchOf_eq_take (cfg : Config) (txs : List Transaction) :
    runBatchOf cfg txs = txs.take cfg.hp_max_transactions_per_batch := by
  rw [runBatchOf]
  rcases Nat.le_total txs.length cfg.hp_max_transactions_per_batch with h | h
  · rw [min_eq_left h, List.take_length, List.take_of_length_le h]
  · rw [min_eq_right h]

theorem runBatchOf_length (cfg : Config) (txs : List Transaction) :
    (runBatchOf cfg txs).length
      = min txs.length cfg.hp_max_transactions_per_batch := by
  rw [runBatchOf, List.length_take]
  omega

/-- Claim C3: for every eligible set and configured maximum batch size, a
run attempts exactly min(eligible_count, batch_size) transactions, taken
first-seen first (the prefix of the eligible set) with no other
reordering. -/
theorem run_batch_bound (cfg : Config) (now : String)
    (outcomes : String → SubmitOutcome) (tagFails : String → Bool)
    (saveFails : Bool) (s : ProcessingState) (txs : List Transaction) :
    (runProcessing cfg now outcomes tagFails saveFails s txs).counts.processed
        = min txs.length cfg.hp_max_transactions_per_batch
      ∧ (runProcessing cfg now outcomes tagFails saveFails s txs).attempted
        = txs.take cfg.hp_max_transactions_per_batch
      ∧ (runProcessing cfg now outcomes tagFails saveFails s txs).attempted.length
        = min txs.length cfg.hp_max_transactions_per_batch := by
  by_cases h0 : txs.length = 0
  · have he : txs = [] := List.length_eq_zero.mp h0
    subst he
    rw [runProcessing_zero]
    exact ⟨by simp, by simp, by simp⟩
  · refine ⟨?_, ?_, ?_⟩
    · rw [runProcessing_pos_counts cfg now outcomes tagFails saveFails s txs h0,
        runAccOf, runFold_processed]
      simp [runInit, runBatchOf_length]
    · rw [runProcessing_pos_attempted cfg now outcomes tagFails saveFails s txs h0,
        runBatchOf_eq_take]
    · rw [runProcessing_pos_attempted cfg now outcomes tagFails saveFails s txs h0,
        runBatchOf_length]

/-- Claim C6: an account whose fetch fails contributes nothing to the
candidate set, every other account's HP transactions are retained exactly
as if the failing account were absent, and the merge is total (the failure
does not propagate out of the fetch loop). -/
theorem account_fetch_isolation (hpCategoryIds : List String)
    (xs ys : List (Except String (List Transaction))) (e : String) :
    mergeAccountFetches hpCategoryIds (xs ++ Except.error e :: ys)
        = mergeAccountFetches hpCategoryIds xs
            ++ mergeAccountFetches hpCategoryIds ys
      ∧ mergeAccountFetches hpCategoryIds (xs ++ Except.error e :: ys)
        = mergeAccountFetches hpCategoryIds (xs ++ ys)
      ∧ fetchEligible hpCategoryIds (xs ++ Except.error e :: ys)
        = fetchEligible hpCategoryIds (xs ++ ys) := by
  refine ⟨?_, ?_, ?_⟩ <;>
    simp [mergeAccountFetches_eq_join, fetchEligible, accountHPTransactions]

/-- Claim C9: loadState is total and returns the empty default state (empty
transactions map, null last_processing, zeroed statistics) whenever the
state file is missing, unreadable, or holds invalid JSON. -/
theorem loadState_never_fails :
    (∀ parseState, loadState none parseState = defaultState)
      ∧ (∀ parseState e, loadState (some (Except.error e)) parseState
          = defaultState)
      ∧ (∀ (parseState : String → Except String ProcessingState) raw e,
          parseState raw = Except.error e →
          loadState (some (Except.ok raw)) parseState = defaultState)
      ∧ defaultState.transactions = []
      ∧ defaultState.last_processing = none
      ∧ defaultState.statistics
          = { total_processed := 0, total_submitted := 0, total_paid := 0,
              total_failed := 0 } := by
  refine ⟨fun _ => rfl, fun _ _ => rfl, ?_, rfl, rfl, rfl⟩
  intro parseState raw e h
  simp [loadState, h]

/-- Claim C5 (amended): the hp-process trigger handler performs no
run-in-progress check at all: whatever the state of the environment when
the trigger arrives, it spawns a new processor run unconditionally, its
response is 200, 408 or 500 — never a 409 conflict — and the response does
not depend on whether a run was already active. -/
theorem trigger_never_conflict (runInProgress : Bool) (child : ChildOutcome)
    (parsedOk : Bool) :
    (hpProcessHandler runInProgress child parsedOk).2 = true
      ∧ ¬ (hpProcessHandler runInProgress child parsedOk).1.httpStatus = 409
      ∧ ((hpProcessHandler runInProgress child parsedOk).1.httpStatus = 200
          ∨ (hpProcessHandler runInProgress child parsedOk).1.httpStatus = 408
          ∨ (hpProcessHandler runInProgress child parsedOk).1.httpStatus = 500)
      ∧ hpProcessHandler runInProgress child parsedOk
        = hpProcessHandler false child parsedOk := by
  refine ⟨rfl, ?_, ?_, rfl⟩ <;>
  · cases child with
    | timedOut => simp [hpProcessHandler]
    | exited code output =>
      by_cases h : (code == 0 && !(output == "") && parsedOk) = true <;>
        simp [hpProcessHandler, h]

/-- Claim C5 is false as stated: a manual trigger arriving while a run is
already in progress is not rejected — the handler spawns a second run and
answers 200 success. -/
theorem trigger_conflict_counterexample :
    (hpProcessHandler true (ChildOutcome.exited 0 "out") true).2 = true
      ∧ (hpProcessHandler true (ChildOutcome.exited 0 "out") true).1.success
        = true
      ∧ (hpProcessHandler true (ChildOutcome.exited 0 "out") true).1.httpStatus
        = 200 := by
  decide

theorem fetchEligible_single (hpCategoryIds : List String)
    (txs : List Transaction) :
    fetchEligible hpCategoryIds [Except.ok txs]
      = (txs.filter (hpCategoryFilter hpCategoryIds)).filter eligibleFilter := by
  simp [fetchEligible, mergeAccountFetches, accountHPTransactions]

/-- Claim C2: on any fetched list, the combined category and eligibility
filter selects exactly the transactions that are cleared, categorized in
the configured HP category set, and free of both idempotency markers at
every position of their notes; a category-less transaction is never
selected, absent notes count as marker-absent, and the output is a sublist
of the input (order preserved). -/
theorem hp_eligibility_filter_exact (hpCategoryIds : List String)
    (txs : List Transaction) :
    (∀ t : Transaction,
        t ∈ fetchEligible hpCategoryIds [Except.ok txs] ↔
          (t ∈ txs ∧ t.cleared = true
            ∧ (∃ c, t.category = some c ∧ ¬ c = "" ∧ c ∈ hpCategoryIds)
            ∧ ¬ submittedMarker.data <:+: (notesOrEmpty t).data
            ∧ ¬ paidMarker.data <:+: (notesOrEmpty t).data))
      ∧ (∀ t : Transaction, t.category = none →
          ¬ t ∈ fetchEligible hpCategoryIds [Except.ok txs])
      ∧ (∀ t : Transaction, t ∈ txs → t.notes = none → t.cleared = true →
          (∃ c, t.category = some c ∧ ¬ c = "" ∧ c ∈ hpCategoryIds) →
          t ∈ fetchEligible hpCategoryIds [Except.ok txs])
      ∧ (fetchEligible hpCategoryIds [Except.ok txs]).Sublist txs := by
  have hmem : ∀ t : Transaction,
      t ∈ fetchEligible hpCategoryIds [Except.ok txs] ↔
        (t ∈ txs ∧ t.cleared = true
          ∧ (∃ c, t.category = some c ∧ ¬ c = "" ∧ c ∈ hpCategoryIds)
          ∧ ¬ submittedMarker.data <:+: (notesOrEmpty t).data
          ∧ ¬ paidMarker.data <:+: (notesOrEmpty t).data) := by
    intro t
    rw [fetchEligible_single, List.mem_filter, List.mem_filter,
      eligibleFilter_iff, hpCategoryFilter_iff]
    tauto
  refine ⟨hmem, ?_, ?_, ?_⟩
  · intro t hc hin
    obtain ⟨-, -, ⟨c, hcat, -, -⟩, -, -⟩ := (hmem t).mp hin
    rw [hc] at hcat
    cases hcat
  · intro t ht hn hcl hcat
    have hempty : notesOrEmpty t = "" := by simp [notesOrEmpty, hn]
    refine (hmem t).mpr ⟨ht, hcl, hcat, ?_, ?_⟩ <;> rw [hempty] <;> decide
  · rw [fetchEligible_single]
    exact (List.filter_sublist _).trans (List.filter_sublist txs)

theorem runProcessing_pos_state_transactions (cfg : Config) (now : String)
    (outcomes : String → SubmitOutcome) (tagFails : String → Bool)
    (saveFails : Bool) (s : ProcessingState) (txs : List Transaction)
    (h : ¬ txs.length = 0) :
    (runProcessing cfg now outcomes tagFails saveFails s txs).state.transactions
      = (runAccOf cfg now outcomes tagFails s txs).transactions := by
  rw [runProcessing_pos_state cfg now outcomes tagFails saveFails s txs h]

/-- The configured HP category id used by the concrete scenarios below. -/
def hpCatA : String := "cat-hp"

/-- An eligible scenario transaction: cleared, HP-categorized, no notes. -/
def scenTx (n : String) : Transaction :=
  { id := n
    payee := some "Payee"
    amount := -2500
    date := "2025-03-01"
    category := some hpCatA
    cleared := true
    notes := none
    account := "acct" }

/-- Scenario configuration: dry run enabled, batch size 50. -/
def cfgDry : Config :=
  { hp_dry_run_mode := true, hp_max_transactions_per_batch := 50 }

/-- Live configuration: dry run off, batch size 50. -/
def cfgLive : Config :=
  { hp_dry_run_mode := false, hp_max_transactions_per_batch := 50 }

/-- Claim C7: with the dry-run flag set, every processed transaction gets a
synthesized success without any Export Client call and its tracked status
becomes `submitted`; concretely, 3 eligible transactions with batch size 50
yield {processed:3, submitted:3, failed:0} and three tracked entries all
`submitted`, with no export call even though every real submission would
have failed. -/
theorem dry_run_synthesizes_success :
    (∀ (cfg : Config) (now : String) (outcomes : String → SubmitOutcome)
        (tagFails : String → Bool) (saveFails : Bool) (s : ProcessingState)
        (txs : List Transaction), cfg.hp_dry_run_mode = true →
        (runProcessing cfg now outcomes tagFails saveFails s txs).exportCalls = []
          ∧ (runProcessing cfg now outcomes tagFails saveFails s txs).counts.submitted
            = (runProcessing cfg now outcomes tagFails saveFails s txs).counts.processed
          ∧ (runProcessing cfg now outcomes tagFails saveFails s txs).counts.failed = 0
          ∧ ∀ t ∈ (runProcessing cfg now outcomes tagFails saveFails s txs).attempted,
              Option.map TrackedTransaction.status
                (findTx (runProcessing cfg now outcomes tagFails saveFails s
                  txs).state.transactions t.id) = some TxStatus.submitted)
      ∧ (runPipeline cfgDry "2025-03-02" (fun _ => SubmitOutcome.failure "down")
            (fun _ => false) false defaultState [hpCatA]
            [Except.ok [scenTx "a1", scenTx "a2", scenTx "a3"]]).counts
          = { processed := 3, submitted := 3, failed := 0 }
      ∧ (runPipeline cfgDry "2025-03-02" (fun _ => SubmitOutcome.failure "down")
            (fun _ => false) false defaultState [hpCatA]
            [Except.ok [scenTx "a1", scenTx "a2", scenTx "a3"]]).state.transactions.map
              (fun p => p.2.status)
          = [TxStatus.submitted, TxStatus.submitted, TxStatus.submitted]
      ∧ (runPipeline cfgDry "2025-03-02" (fun _ => SubmitOutcome.failure "down")
            (fun _ => false) false defaultState [hpCatA]
            [Except.ok [scenTx "a1", scenTx "a2", scenTx "a3"]]).exportCalls
          = [] := by
  refine ⟨?_, by decide, by decide, by decide⟩
  intro cfg now outcomes tagFails saveFails s txs hdry
  by_cases h0 : txs.length = 0
  · have he : txs = [] := List.length_eq_zero.mp h0
    subst he
    rw [runProcessing_zero]
    exact ⟨rfl, rfl, rfl, fun t ht => by cases ht⟩
  · obtain ⟨hsub, hfail, hexp⟩ :=
      runFold_dry_counts cfg now outcomes tagFails hdry (runBatchOf cfg txs)
        (runInit s)
    refine ⟨?_, ?_, ?_, ?_⟩
    · rw [runProcessing_pos_exportCalls cfg now outcomes tagFails saveFails s txs h0,
        runAccOf, hexp]
      rfl
    · rw [runProcessing_pos_counts cfg now outcomes tagFails saveFails s txs h0,
        runAccOf, hsub, runFold_processed]
      rfl
    · rw [runProcessing_pos_counts cfg now outcomes tagFails saveFails s txs h0,
        runAccOf, hfail]
      rfl
    · intro t ht
      rw [runProcessing_pos_attempted cfg now outcomes tagFails saveFails s txs h0]
        at ht
      rw [runProcessing_pos_state_transactions cfg now outcomes tagFails saveFails
        s txs h0, runAccOf]
      exact runFold_dry_status cfg now outcomes tagFails hdry (runBatchOf cfg txs)
        (runInit s) t ht

/-- A previously tracked, already submitted transaction entry. -/
def trOld : TrackedTransaction :=
  { id := "old1"
    payee := some "P"
    amount := -100
    date := "2025-01-15"
    category := some hpCatA
    status := .submitted
    created_at := "2025-01-15"
    attempts := 1 }

/-- A non-trivial prior ProcessingState with history and statistics. -/
def stOld : ProcessingState :=
  { transactions := [("old1", trOld)]
    last_processing := some "2025-01-15"
    statistics :=
      { total_processed := 5, total_submitted := 4, total_paid := 0,
        total_failed := 1 } }

/-- Claim C8 (amended): a run that attempts at least one transaction ends
with the lifetime statistics incremented by exactly this run's counts and
the whole ProcessingState (with last_processing stamped) written as the new
snapshot; a run that finds no eligible transactions returns zero counts and
neither modifies nor saves the state. -/
theorem state_saved_after_nonempty_run (cfg : Config) (now : String)
    (outcomes : String → SubmitOutcome) (tagFails : String → Bool)
    (saveFails : Bool) (s : ProcessingState) (txs : List Transaction) :
    (¬ txs = [] →
        (runProcessing cfg now outcomes tagFails saveFails s txs).saveCalled = true
          ∧ (runProcessing cfg now outcomes tagFails saveFails s
              txs).state.statistics.total_processed
            = s.statistics.total_processed
              + (runProcessing cfg now outcomes tagFails saveFails s
                  txs).counts.processed
          ∧ (runProcessing cfg now outcomes tagFails saveFails s
              txs).state.statistics.total_submitted
            = s.statistics.total_submitted
              + (runProcessing cfg now outcomes tagFails saveFails s
                  txs).counts.submitted
          ∧ (runProcessing cfg now outcomes tagFails saveFails s
              txs).state.statistics.total_failed
            = s.statistics.total_failed
              + (runProcessing cfg now outcomes tagFails saveFails s
                  txs).counts.failed
          ∧ (runProcessing cfg now outcomes tagFails saveFails s
              txs).state.last_processing = some now
          ∧ (saveFails = false →
              (runProcessing cfg now outcomes tagFails saveFails s
                txs).savedSnapshot
                = some (runProcessing cfg now outcomes tagFails saveFails s
                    txs).state))
      ∧ (txs = [] →
          (runProcessing cfg now outcomes tagFails saveFails s txs).saveCalled
              = false
            ∧ (runProcessing cfg now outcomes tagFails saveFails s
                txs).savedSnapshot = none
            ∧ (runProcessing cfg now outcomes tagFails saveFails s txs).state
              = s) := by
  constructor
  · intro hne
    have h0 : ¬ txs.length = 0 := fun h => hne (List.length_eq_zero.mp h)
    refine ⟨runProcessing_pos_saveCalled cfg now outcomes tagFails saveFails s
      txs h0, ?_, ?_, ?_, ?_, ?_⟩
    · rw [runProcessing_pos_state cfg now outcomes tagFails saveFails s txs h0,
        runProcessing_pos_counts cfg now outcomes tagFails saveFails s txs h0]
    · rw [runProcessing_pos_state cfg now outcomes tagFails saveFails s txs h0,
        runProcessing_pos_counts cfg now outcomes tagFails saveFails s txs h0]
    · rw [runProcessing_pos_state cfg now outcomes tagFails saveFails s txs h0,
        runProcessing_pos_counts cfg now outcomes tagFails saveFails s txs h0]
    · rw [runProcessing_pos_state cfg now outcomes tagFails saveFails s txs h0]
    · intro hsf
      rw [runProcessing_pos_savedSnapshot cfg now outcomes tagFails saveFails s
        txs h0, hsf]
      simp
  · intro he
    subst he
    rw [runProcessing_zero]
    exact ⟨rfl, rfl, rfl⟩

/-- Claim C8 is false as stated for a run with no eligible transactions:
such a run returns without saving anything — the state file keeps the old
snapshot and last_processing is not updated. -/
theorem run_without_save_counterexample :
    (runProcessing cfgLive "2025-03-02" (fun _ => SubmitOutcome.success 1)
        (fun _ => false) false stOld []).saveCalled = false
      ∧ (runProcessing cfgLive "2025-03-02" (fun _ => SubmitOutcome.success 1)
          (fun _ => false) false stOld []).savedSnapshot = none
      ∧ (runProcessing cfgLive "2025-03-02" (fun _ => SubmitOutcome.success 1)
          (fun _ => false) false stOld []).state = stOld := by
  decide

/-- Claim C10: when submission succeeds but the idempotency-tag write to
the ledger fails, the error is swallowed: the tracked entry keeps status
`submitted` with the Xano id recorded, the result still reports success,
no ledger write happens, and at run level every count and the final state
are identical to a run whose tag writes all succeed (the batch is not
aborted). -/
theorem tag_write_failure_swallowed :
    (∀ (cfg : Config) (now : String) (xid : Nat) (m : TxMap) (t : Transaction),
        ¬ cfg.hp_dry_run_mode = true →
        (processTransaction cfg now (SubmitOutcome.success xid) true m
            t).result.success = true
          ∧ (processTransaction cfg now (SubmitOutcome.success xid) true m
              t).exportCalled = true
          ∧ (processTransaction cfg now (SubmitOutcome.success xid) true m
              t).ledgerNotesWrite = none
          ∧ Option.map TrackedTransaction.status
              (findTx (processTransaction cfg now (SubmitOutcome.success xid)
                true m t).transactions t.id) = some TxStatus.submitted
          ∧ Option.bind
              (findTx (processTransaction cfg now (SubmitOutcome.success xid)
                true m t).transactions t.id) TrackedTransaction.xano_id
            = some xid
          ∧ (processTransaction cfg now (SubmitOutcome.success xid) true m
              t).transactions
            = (processTransaction cfg now (SubmitOutcome.success xid) false m
                t).transactions
          ∧ (processTransaction cfg now (SubmitOutcome.success xid) true m
              t).result
            = (processTransaction cfg now (SubmitOutcome.success xid) false m
                t).result)
      ∧ (∀ (cfg : Config) (now : String) (outcomes : String → SubmitOutcome)
          (tf1 tf2 : String → Bool) (saveFails : Bool) (s : ProcessingState)
          (txs : List Transaction),
          (runProcessing cfg now outcomes tf1 saveFails s txs).counts
              = (runProcessing cfg now outcomes tf2 saveFails s txs).counts
            ∧ (runProcessing cfg now outcomes tf1 saveFails s txs).state
              = (runProcessing cfg now outcomes tf2 saveFails s txs).state
            ∧ (runProcessing cfg now outcomes tf1 saveFails s txs).exportCalls
              = (runProcessing cfg now outcomes tf2 saveFails s txs).exportCalls
            ∧ (runProcessing cfg now outcomes tf1 saveFails s txs).saveCalled
              = (runProcessing cfg now outcomes tf2 saveFails s txs).saveCalled) := by
  constructor
  · intro cfg now xid m t hnd
    refine ⟨by simp [processTransaction, hnd], by simp [processTransaction, hnd],
      by simp [processTransaction, hnd], ?_, ?_,
      by simp [processTransaction, hnd], by simp [processTransaction, hnd]⟩
    · simp [processTransaction, hnd, findTx_setTx_self]
    · simp [processTransaction, hnd, findTx_setTx_self]
  · intro cfg now outcomes tf1 tf2 saveFails s txs
    by_cases h0 : txs.length = 0
    · have he : txs = [] := List.length_eq_zero.mp h0
      subst he
      rw [runProcessing_zero, runProcessing_zero]
      exact ⟨rfl, rfl, rfl, rfl⟩
    · obtain ⟨ht, hc, he⟩ := runFold_tag_independent cfg now outcomes tf1 tf2
        (runBatchOf cfg txs) (runInit s) (runInit s) rfl rfl rfl
      refine ⟨?_, ?_, ?_, ?_⟩
      · rw [runProcessing_pos_counts cfg now outcomes tf1 saveFails s txs h0,
          runProcessing_pos_counts cfg now outcomes tf2 saveFails s txs h0,
          runAccOf, runAccOf, hc]
      · rw [runProcessing_pos_state cfg now outcomes tf1 saveFails s txs h0,
          runProcessing_pos_state cfg now outcomes tf2 saveFails s txs h0,
          runAccOf, runAccOf, ht, hc]
      · rw [runProcessing_pos_exportCalls cfg now outcomes tf1 saveFails s txs h0,
          runProcessing_pos_exportCalls cfg now outcomes tf2 saveFails s txs h0,
          runAccOf, runAccOf, he]
      · rw [runProcessing_pos_saveCalled cfg now outcomes tf1 saveFails s txs h0,
          runProcessing_pos_saveCalled cfg now outcomes tf2 saveFails s txs h0]

/-- Claim C4: across any run, the transactions map stays keyed at most once
per identifier, every previously tracked entry survives with a
non-decreasing attempts counter, and an entry recorded `submitted` or
`paid` is never reset to `pending` by a normal run. -/
theorem tracked_state_invariants (cfg : Config) (now : String)
    (outcomes : String → SubmitOutcome) (tagFails : String → Bool)
    (saveFails : Bool) (s : ProcessingState) (txs : List Transaction)
    (hnodup : (s.transactions.map Prod.fst).Nodup) :
    (((runProcessing cfg now outcomes tagFails saveFails s
        txs).state.transactions).map Prod.fst).Nodup
      ∧ ∀ k tr, findTx s.transactions k = some tr →
          ∃ tr2,
            findTx ((runProcessing cfg now outcomes tagFails saveFails s
                txs).state.transactions) k = some tr2
              ∧ tr.attempts ≤ tr2.attempts
              ∧ ((tr.status = .submitted ∨ tr.status = .paid) →
                  ¬ tr2.status = .pending) := by
  by_cases h0 : txs.length = 0
  · have he : txs = [] := List.length_eq_zero.mp h0
    subst he
    rw [runProcessing_zero]
    refine ⟨hnodup, fun k tr h => ⟨tr, h, Nat.le_refl _, ?_⟩⟩
    rintro (hs | hs) hp <;> rw [hs] at hp <;> cases hp
  · rw [runProcessing_pos_state_transactions cfg now outcomes tagFails saveFails
      s txs h0, runAccOf]
    constructor
    · exact runFold_keys_nodup cfg now outcomes tagFails (runBatchOf cfg txs)
        (runInit s) hnodup
    · intro k tr h
      obtain ⟨tr2, hf, ha, hs⟩ := runFold_evolves cfg now outcomes tagFails
        (runBatchOf cfg txs) (runInit s) k tr h
      refine ⟨tr2, hf, ha, ?_⟩
      intro hsp hp
      have hpend := hs hp
      rcases hsp with h1 | h1 <;> rw [h1] at hpend <;> cases hpend

/-- Witness for the state invariants at a concrete run: live config, the
prior state stOld with one submitted entry, and one new eligible
transaction. -/
theorem tracked_state_invariants_witness :
    (((runProcessing cfgLive "2025-03-02" (fun _ => SubmitOutcome.success 2)
        (fun _ => false) false stOld [scenTx "n1"]).state.transactions).map
          Prod.fst).Nodup
      ∧ ∀ k tr, findTx stOld.transactions k = some tr →
          ∃ tr2,
            findTx ((runProcessing cfgLive "2025-03-02"
                (fun _ => SubmitOutcome.success 2) (fun _ => false) false stOld
                [scenTx "n1"]).state.transactions) k = some tr2
              ∧ tr.attempts ≤ tr2.attempts
              ∧ ((tr.status = .submitted ∨ tr.status = .paid) →
                  ¬ tr2.status = .pending) :=
  tracked_state_invariants cfgLive "2025-03-02"
    (fun _ => SubmitOutcome.success 2) (fun _ => false) false stOld
    [scenTx "n1"] (by decide)

/-- Claim C1 (amended): the rerun guard is the notes marker, not the
ProcessingState flag: an identifier every fetched copy of which carries an
idempotency marker in its notes is never submitted to the Export Client by
a rerun of the full pipeline; when the earlier tag write failed — the notes
carry no marker — a transaction recorded `submitted` in ProcessingState is
selected and submitted again (see the counterexample). -/
theorem marker_blocks_resubmission (cfg : Config) (now : String)
    (outcomes : String → SubmitOutcome) (tagFails : String → Bool)
    (saveFails : Bool) (s : ProcessingState) (hpCategoryIds : List String)
    (fetches : List (Except String (List Transaction))) (i : String)
    (hall : ∀ t : Transaction,
        t ∈ mergeAccountFetches hpCategoryIds fetches → t.id = i →
        submittedMarker.data <:+: (notesOrEmpty t).data
          ∨ paidMarker.data <:+: (notesOrEmpty t).data) :
    ¬ i ∈ (runPipeline cfg now outcomes tagFails saveFails s hpCategoryIds
        fetches).exportCalls := by
  intro hmem
  rw [runPipeline] at hmem
  by_cases h0 : (fetchEligible hpCategoryIds fetches).length = 0
  · have he : fetchEligible hpCategoryIds fetches = [] :=
      List.length_eq_zero.mp h0
    rw [he, runProcessing_zero] at hmem
    cases hmem
  · rw [runProcessing_pos_exportCalls cfg now outcomes tagFails saveFails s _
      h0, runAccOf] at hmem
    rcases runFold_exportCalls_mem cfg now outcomes tagFails
        (runBatchOf cfg (fetchEligible hpCategoryIds fetches)) (runInit s) i
        hmem with hin | ⟨t, htb, hid⟩
    · cases hin
    · rw [runBatchOf] at htb
      have htel : t ∈ fetchEligible hpCategoryIds fetches :=
        List.take_subset _ _ htb
      rw [fetchEligible, List.mem_filter] at htel
      obtain ⟨hmerge, helig⟩ := htel
      obtain ⟨-, hns, hnp⟩ := (eligibleFilter_iff t).mp helig
      rcases hall t hmerge hid with hcon | hcon
      · exact hns hcon
      · exact hnp hcon

/-- A fetched transaction whose notes already carry the submitted marker
(the tag write succeeded on an earlier run). -/
def taggedTx : Transaction :=
  { id := "t9"
    payee := some "S"
    amount := -100
    date := "2025-02-01"
    category := some hpCatA
    cleared := true
    notes := some "lunch #HP-Submitted"
    account := "a" }

/-- Witness: a rerun whose only fetched copy of "t9" carries the marker in
its notes never calls the Export Client for "t9". -/
theorem marker_blocks_resubmission_witness :
    taggedTx.notes = some "lunch #HP-Submitted"
      ∧ ¬ "t9" ∈ (runPipeline cfgLive "2025-03-02"
          (fun _ => SubmitOutcome.success 3) (fun _ => false) false defaultState
          [hpCatA] [Except.ok [taggedTx]]).exportCalls :=
  ⟨rfl,
    marker_blocks_resubmission cfgLive "2025-03-02"
      (fun _ => SubmitOutcome.success 3) (fun _ => false) false defaultState
      [hpCatA] [Except.ok [taggedTx]] "t9" (by decide)⟩

/-- A fetched transaction identical to an already submitted one whose tag
write failed: no marker in the notes. -/
def untaggedTx : Transaction :=
  { id := "t1"
    payee := some "S"
    amount := -500
    date := "2025-02-01"
    category := some hpCatA
    cleared := true
    notes := some ""
    account := "a" }

/-- The prior state recording "t1" as already submitted (with its Xano id),
as left by a run whose tag write failed after a successful submission. -/
def stSub : ProcessingState :=
  { transactions :=
      [("t1",
        { id := "t1"
          payee := some "S"
          amount := -500
          date := "2025-02-01"
          category := some hpCatA
          status := .submitted
          created_at := "2025-02-01"
          attempts := 1
          xano_id := some 7 })]
    last_processing := some "2025-02-01"
    statistics :=
      { total_processed := 1, total_submitted := 1, total_paid := 0,
        total_failed := 1 } }

/-- Claim C1 is false as stated: "t1" is recorded `submitted` in
ProcessingState, yet — its notes carrying no marker because the tag write
failed — a rerun of the full pipeline calls the Export Client for "t1"
again. -/
theorem submitted_state_resubmitted_counterexample :
    Option.map TrackedTransaction.status (findTx stSub.transactions "t1")
        = some TxStatus.submitted
      ∧ "t1" ∈ (runPipeline cfgLive "2025-03-02"
          (fun _ => SubmitOutcome.success 8) (fun _ => false) false stSub
          [hpCatA] [Except.ok [untaggedTx]]).exportCalls := by
  decide

end ActualHP
